import Mathlib

/-!
Verification development for the Open-Sora Gradio orchestration app
(`gradio/app.py`): a shallow embedding of `run_inference` and
`run_video_inference`, the duration planner, the per-loop generation state
machine, and the segment stitcher, together with theorems about them.

External collaborators (autoencoder, text encoder, denoiser, diffusion
scheduler internals, prompt utilities, torch RNG) are modelled as pure
oracle functions collected in an `Env` record; tensors and other opaque
payloads are represented by natural-number codes, pixel segments by lists
of frame codes, floats by rationals, and Python exceptions by an explicit
error result.  The incoming state of the global torch generator and of the
single shared scheduler object are explicit arguments, so that statements
about cross-request interference can be made.
-/

set_option linter.unusedVariables false

/-- Configuration state of the shared scheduler object.  The fields are the
three keys that `run_inference` overrides per request (lines 301-305 of
`gradio/app.py`), plus an abstract `other` code standing for every remaining
entry of `config.scheduler` after `pop` of the `type` key, which the copy
keeps unchanged. -/
structure SchedCfg where
  num_sampling_steps : ℕ
  cfg_scale : ℚ
  use_timestep_transform : Bool
  other : ℕ
  deriving Repr, DecidableEq

/-- Observable effect events of one request, in program order. -/
inductive Event where
  | scheduler_call (kwargs : SchedCfg)
  | decode_call
  | save
  | empty_cache
  deriving Repr, DecidableEq

/-- Errors that `run_inference` can raise.  `invalidMode` is the
`ValueError` of lines 244 and 260, `valueError` is the `int()` failure on a
non-numeric length tag (line 219), and the two failure constructors stand
for exceptions propagated unchanged from the scheduler and the autoencoder. -/
inductive RunError where
  | invalidMode (mode : String)
  | valueError
  | schedulerFailure
  | decodeFailure
  deriving Repr, DecidableEq

/-- Result of the duration planner (lines 212-228). -/
structure Plan where
  num_frames : ℕ
  num_loop : ℕ
  fps : ℕ
  deriving Repr, DecidableEq

/-- External collaborators of the orchestration core, as pure oracles.
Tensor-like values (latents, reference sets, masks, model arguments) are
abstract natural-number codes; decoded segments are lists of frame codes
for batch item 0; the global torch generator is a natural-number state
threaded through `randn` and `sample`. -/
structure Env where
  get_image_size : String → String → ℕ × ℕ
  img_fps : ℕ
  dframe_to_frame : ℕ → ℕ
  get_latent_size : ℕ × ℕ × ℕ → ℕ
  save_temp_image : ℕ → String
  extract_json_from_prompts : String → String → Option String → String × String × Option String
  collect_references_batch : String → ℕ × ℕ → ℕ
  append_score_to_prompts : String → Option ℚ → Option ℚ → String
  prepare_multi_resolution_info : String → ℕ → ℕ × ℕ → ℕ → ℕ → ℕ
  extract_prompts_loop : String → ℕ → String
  text_preprocessing : String → String
  append_generated : List ℕ → ℕ → Option String → ℕ → ℕ → ℕ × Option String
  seed_state : ℕ → ℕ
  randn : ℕ → ℕ → ℕ → ℕ × ℕ
  apply_mask_strategy : ℕ → ℕ → Option String → ℕ → ℕ → ℕ × ℕ
  sample : SchedCfg → ℕ → String → ℕ → ℕ → ℕ → Option (ℕ × ℕ)
  decode : ℕ → ℕ → Option (List ℕ)
  save_sample : List ℕ → String → ℕ → String
  output_dir : String
  timestamp : String

/-- Static configuration read from the config file (the file itself is not
part of the sources; its fields are exactly the ones `run_inference`
reads: `config.fps`, `config.num_frames`, `config.condition_frame_length`
and `config.scheduler`). -/
structure Config where
  fps : ℕ
  num_frames : ℕ
  condition_frame_length : ℕ
  scheduler : SchedCfg

/-- One generation request, the argument tuple of `run_inference`
(line 200).  The length tag is kept as its raw string form, the reference
image as an optional abstract pixel-array code, and the two float sliders
as rationals. -/
structure Request where
  mode : String
  prompt_text : String
  resolution : String
  aspect_ratio : String
  length : String
  motion_strength : ℚ
  aesthetic_score : ℚ
  use_motion_strength : Bool
  use_aesthetic_score : Bool
  use_timestep_transform : Bool
  reference_image : Option ℕ
  seed : ℕ
  sampling_steps : ℕ
  cfg_scale : ℚ

/-- Modelled from the spec: the length-tag lookup `get_num_frames` of
`opensora.datasets.aspect` is not part of the sources; the end-to-end
scenario of the spec states that a request of tag `Ns` produces a video
whose frame count matches the requested length at the configured fps, so
the lookup resolves a tag of `s` seconds to `fps * s` frames. -/
def get_num_frames (cfg : Config) (seconds : ℕ) : ℕ :=
  cfg.fps * seconds

/-- Strip all trailing `s` characters, as `str.rstrip` does on line 219. -/
def rstrip_s (s : String) : String :=
  String.mk ((s.data.reverse.dropWhile (fun c => c == 's')).reverse)

/-- Digit value of one character, as `int` accepts it. -/
def charDigit? (c : Char) : Option ℕ :=
  if c.isDigit then some (c.toNat - 48) else none

/-- Decimal parse of a character list, accumulator style. -/
def parse_digits : List Char → ℕ → Option ℕ
  | [], acc => some acc
  | c :: cs, acc =>
    match charDigit? c with
    | none => none
    | some d => parse_digits cs (acc * 10 + d)

/-- Parse the length tag, modelling `int(length.rstrip(chr(115)))` of line
219 on decimal digit strings; `none` models the `ValueError` that `int`
raises on an empty or non-numeric remainder. -/
def parse_seconds (length : String) : Option ℕ :=
  match (rstrip_s length).data with
  | [] => none
  | cs => parse_digits cs 0

/-- Duration planner, lines 212-228.  Any mode other than `Text2Image`
takes the video arm, exactly as the `if`/`else` of the source does; the
arithmetic of the long-video arm is over ℤ with truncating division,
matching `int()` applied to the Python float quotient (exact for the
argument ranges of interest), and the loop count is the `toNat` clamp that
`range` applies. -/
def plan (env : Env) (cfg : Config) (mode : String) (seconds : ℕ) : Plan :=
  if mode == "Text2Image" then
    { num_frames := 1, num_loop := 1, fps := env.img_fps }
  else
    if seconds ≤ 16 then
      { num_frames := get_num_frames cfg seconds, num_loop := 1, fps := cfg.fps }
    else
      let total_num_frames : ℤ := (cfg.fps * seconds : ℕ)
      let condition_real_frame_length : ℤ :=
        (env.dframe_to_frame cfg.condition_frame_length : ℕ)
      let num_subsequence_loop : ℤ :=
        Int.tdiv (total_num_frames - (cfg.num_frames : ℤ))
          ((cfg.num_frames : ℤ) - condition_real_frame_length)
      { num_frames := cfg.num_frames,
        num_loop := (num_subsequence_loop + 1).toNat,
        fps := cfg.fps }

/-- The per-call kwargs of lines 301-305: a copy of `config.scheduler`
minus the `type` key, with the three per-request keys overridden. -/
def scheduler_kwargs (cfg : Config) (req : Request) : SchedCfg :=
  { cfg.scheduler with
    num_sampling_steps := req.sampling_steps,
    cfg_scale := req.cfg_scale,
    use_timestep_transform := req.use_timestep_transform }

/-- The in-place trimming loop of lines 327-328: index 0 is left untouched,
every later index has its leading `dframe_to_frame(condition_frame_length)`
frames dropped. -/
def trim_video_clips (crl : ℕ) (clips : List (List ℕ)) : List (List ℕ) :=
  clips.mapIdx (fun i clip => if i = 0 then clip else clip.drop crl)

/-- Segment stitcher, lines 326-329: trim, then `torch.cat` along the
temporal axis in list order. -/
def stitch (crl : ℕ) (clips : List (List ℕ)) : List ℕ :=
  (trim_video_clips crl clips).flatten

/-- Working state of the generation loop of lines 284-321: torch generator
state, state of the shared scheduler object, current reference set and mask
strategy, accumulated decoded clips, plus two observation logs (the latent
noise drawn per loop and the effect trace). -/
structure LoopState where
  rng : ℕ
  sched : SchedCfg
  refs : ℕ
  ms : Option String
  clips : List (List ℕ)
  zs : List ℕ
  trace : List Event

/-- The generation loop, lines 286-321, by recursion on the remaining loop
count with `i` the current loop index.  A `some` error aborts the whole
request at the failing point, like the propagated Python exception. -/
def genLoops (env : Env) (cfg : Config) (req : Request)
    (num_frames latent_size cfl align : ℕ) (bp : String) (margs : ℕ) :
    ℕ → ℕ → LoopState → LoopState × Option RunError
  | _, 0, st => (st, none)
  | i, fuel + 1, st =>
    -- lines 288-289: per-loop prompt extraction and cleaning
    let bpl := env.text_preprocessing (env.extract_prompts_loop bp i)
    -- lines 292-293: feed the tail of the previous clip back as reference
    let rm :=
      if 0 < i then
        env.append_generated (st.clips.getLast?.getD []) st.refs st.ms i cfl
      else (st.refs, st.ms)
    -- line 296: draw the latent noise from the global generator
    let zr := env.randn st.rng 1 latent_size
    -- line 297: write the references into the latent under the mask
    let zm := env.apply_mask_strategy zr.1 rm.1 rm.2 i align
    -- lines 301-309: re-initialize the shared scheduler with per-request kwargs
    let kwargs := scheduler_kwargs cfg req
    let sched1 := kwargs
    let trace1 := st.trace ++ [Event.scheduler_call kwargs]
    -- lines 310-319: diffusion sampling; a failure propagates
    match env.sample kwargs zm.1 bpl margs zm.2 zr.2 with
    | none =>
      ({ st with
          rng := zr.2, sched := sched1, refs := rm.1, ms := rm.2,
          zs := st.zs ++ [zr.1], trace := trace1 }, some RunError.schedulerFailure)
    | some lat =>
      let trace2 := trace1 ++ [Event.decode_call]
      -- line 320: decode to pixel space; a failure propagates
      match env.decode lat.1 num_frames with
      | none =>
        ({ st with
            rng := lat.2, sched := sched1, refs := rm.1, ms := rm.2,
            zs := st.zs ++ [zr.1], trace := trace2 }, some RunError.decodeFailure)
      | some seg =>
        genLoops env cfg req num_frames latent_size cfl align bp margs (i + 1) fuel
          { rng := lat.2, sched := sched1, refs := rm.1, ms := rm.2,
            clips := st.clips ++ [seg], zs := st.zs ++ [zr.1], trace := trace2 }

/-- Successful output of one request: the saved path and the stitched
pixel-space video. -/
structure Output where
  saved_path : String
  video : List ℕ
  deriving Repr, DecidableEq

/-- Full observable outcome of one `run_inference` call: the returned value
or propagated error, the effect trace, the state the shared scheduler is
left in, the latent noise drawn per loop, and the plan the request used
(`none` when the length tag failed to parse). -/
structure RunOutcome where
  result : Except RunError Output
  trace : List Event
  sched_final : SchedCfg
  zs : List ℕ
  planned : Option Plan

/-- Lines 262-335: prompt processing, the generation loop, stitching and
saving.  `ms0` and `ref0` are the initial mask strategy and reference
descriptor prepared on lines 236-260. -/
def run_gen (env : Env) (cfg : Config) (req : Request) (p : Plan)
    (image_size : ℕ × ℕ) (latent_size cfl align : ℕ)
    (ms0 : Option String) (ref0 : String) (rng0 : ℕ) (s0 : SchedCfg) : RunOutcome :=
  -- lines 263-266
  let ejm := env.extract_json_from_prompts req.prompt_text ref0 ms0
  let refsC := env.collect_references_batch ejm.2.1 image_size
  -- lines 269-274
  let ums := req.use_motion_strength && !(req.mode == "Text2Image")
  let bp := env.append_score_to_prompts ejm.1
    (if req.use_aesthetic_score then some req.aesthetic_score else none)
    (if ums then some req.motion_strength else none)
  -- lines 277-279
  let margs := env.prepare_multi_resolution_info "OpenSora" 1 image_size p.num_frames p.fps
  let st0 : LoopState :=
    { rng := rng0, sched := s0, refs := refsC, ms := ejm.2.2,
      clips := [], zs := [], trace := [] }
  match genLoops env cfg req p.num_frames latent_size cfl align bp margs 0 p.num_loop st0 with
  | (st, some e) =>
    { result := Except.error e, trace := st.trace, sched_final := st.sched,
      zs := st.zs, planned := some p }
  | (st, none) =>
    -- lines 326-329: trim the conditioning overlap and concatenate
    let video := stitch (env.dframe_to_frame cfl) st.clips
    -- lines 330-333: save under an output path named by the timestamp
    let save_path := env.output_dir ++ "/output_" ++ env.timestamp
    let saved := env.save_sample video save_path p.fps
    -- line 334: the device cache clear, then return
    { result := Except.ok { saved_path := saved, video := video },
      trace := st.trace ++ [Event.save, Event.empty_cache],
      sched_final := st.sched, zs := st.zs, planned := some p }

/-- Lines 230-260: latent sizing, then the mask-strategy and reference
preparation whose final `else` raises the invalid-mode `ValueError`. -/
def run_core (env : Env) (cfg : Config) (req : Request) (p : Plan)
    (image_size : ℕ × ℕ) (cfl : ℕ) (rng0 : ℕ) (s0 : SchedCfg) : RunOutcome :=
  let input_size := (p.num_frames, image_size.1, image_size.2)
  let latent_size := env.get_latent_size input_size
  let align := 5
  if req.mode == "Text2Image" then
    run_gen env cfg req p image_size latent_size cfl align none "" rng0 s0
  else if req.mode == "Text2Video" then
    match req.reference_image with
    | some img =>
      run_gen env cfg req p image_size latent_size cfl align (some "0")
        (env.save_temp_image img) rng0 s0
    | none =>
      run_gen env cfg req p image_size latent_size cfl align none "" rng0 s0
  else
    { result := Except.error (RunError.invalidMode req.mode), trace := [],
      sched_final := s0, zs := [], planned := some p }

/-- The `run_inference` entry point (line 200).  `g0` is the incoming state
of the global torch generator, overwritten by `torch.manual_seed(seed)` on
line 201 before any use; `s0` is the incoming state of the shared scheduler
object. -/
def run_inference (env : Env) (cfg : Config) (req : Request)
    (g0 : ℕ) (s0 : SchedCfg) : RunOutcome :=
  let rng0 := env.seed_state req.seed
  let image_size := env.get_image_size req.resolution req.aspect_ratio
  let cfl := cfg.condition_frame_length
  if req.mode == "Text2Image" then
    run_core env cfg req (plan env cfg req.mode 0) image_size cfl rng0 s0
  else
    match parse_seconds req.length with
    | none =>
      { result := Except.error RunError.valueError, trace := [],
        sched_final := s0, zs := [], planned := none }
    | some seconds =>
      run_core env cfg req (plan env cfg req.mode seconds) image_size cfl rng0 s0

/-- The pre-screen of lines 383-384: combinations known to exhaust device
memory. -/
def infeasible_combination (resolution length : String) : Bool :=
  (resolution == "480p" && length == "16s")
    || (resolution == "720p" && (length == "8s" || length == "16s"))

/-- Observable outcome of one `run_video_inference` call: the returned
value (`none` models the implicit Python `None` of the refused branch),
whether `gr.Warning` fired, and the observations of the inner run. -/
structure AppOutcome where
  ret : Except RunError (Option String)
  warned : Bool
  trace : List Event
  sched_final : SchedCfg
  zs : List ℕ

/-- The `run_video_inference` entry point, lines 369-402: refuse the known
infeasible combinations with a warning and no return value, otherwise run
inference in `Text2Video` mode and return the saved path. -/
def run_video_inference (env : Env) (cfg : Config) (req : Request)
    (g0 : ℕ) (s0 : SchedCfg) : AppOutcome :=
  if infeasible_combination req.resolution req.length then
    { ret := Except.ok none, warned := true, trace := [],
      sched_final := s0, zs := [] }
  else
    let o := run_inference env cfg { req with mode := "Text2Video" } g0 s0
    { ret := o.result.map (fun out => some out.saved_path), warned := false,
      trace := o.trace, sched_final := o.sched_final, zs := o.zs }

/-! ### Concrete instances used by witnesses and counterexamples -/

/-- Scheduler defaults of the concrete example configuration (values of the
config file are not part of the sources; any concrete values serve). -/
def schedDefaults : SchedCfg :=
  { num_sampling_steps := 100, cfg_scale := 4,
    use_timestep_transform := false, other := 5 }

/-- The configuration of the spec example: fps 24, 51 frames per loop,
condition frame length of 5 downsampled frames. -/
def cfg24 : Config :=
  { fps := 24, num_frames := 51, condition_frame_length := 5,
    scheduler := schedDefaults }

/-- A concrete, fully computable collaborator environment whose scheduler
and autoencoder always succeed; `dframe_to_frame` sends the condition frame
length to 17 real frames, matching the spec example. -/
def envOk : Env :=
  { get_image_size := fun _ _ => (16, 16)
    img_fps := 120
    dframe_to_frame := fun _ => 17
    get_latent_size := fun s => s.1
    save_temp_image := fun _ => "ref.png"
    extract_json_from_prompts := fun p r m => (p, r, m)
    collect_references_batch := fun _ _ => 0
    append_score_to_prompts := fun p _ _ => p
    prepare_multi_resolution_info := fun _ _ _ _ _ => 0
    extract_prompts_loop := fun p _ => p
    text_preprocessing := fun p => p
    append_generated := fun _ r m _ _ => (r + 1, m)
    seed_state := fun s => s
    randn := fun st _ _ => (st, st + 1)
    apply_mask_strategy := fun z _ _ _ _ => (z, 0)
    sample := fun _ z _ _ _ rng => some (z, rng)
    decode := fun lat n => some (List.replicate n lat)
    save_sample := fun _ p _ => p
    output_dir := "outputs"
    timestamp := "t0" }

/-- The same environment with a scheduler whose sampling always fails. -/
def envBad : Env :=
  { envOk with sample := fun _ _ _ _ _ _ => none }

/-- A Text2Video request of 17 seconds, longer than the 16 second single
loop budget. -/
def reqVid17 : Request :=
  { mode := "Text2Video", prompt_text := "a cat", resolution := "144p",
    aspect_ratio := "1:1", length := "17s", motion_strength := 100,
    aesthetic_score := 6, use_motion_strength := false,
    use_aesthetic_score := true, use_timestep_transform := true,
    reference_image := none, seed := 1024, sampling_steps := 30,
    cfg_scale := 7 }

/-- A Text2Image request. -/
def reqImg : Request :=
  { reqVid17 with mode := "Text2Image", length := "2s" }

/-- A short Text2Video request of 4 seconds. -/
def reqVid4 : Request :=
  { reqVid17 with length := "4s" }

/-- A request with an unrecognized mode value. -/
def reqFoo : Request :=
  { reqVid17 with mode := "Foo", length := "2s" }

/-- A video request hitting the known infeasible 720p and 8s combination. -/
def req720 : Request :=
  { reqVid17 with resolution := "720p", length := "8s" }

/-- The successful output of the 17 second example run, extracted from the
run outcome. -/
def c2Out : Output :=
  ((run_inference envOk cfg24 reqVid17 0 schedDefaults).result).toOption.getD
    { saved_path := "", video := [] }

/-! ### Lemmas about the generation loop -/

theorem genLoops_zero (env : Env) (cfg : Config) (req : Request)
    (nf ls cfl al : ℕ) (bp : String) (ma : ℕ) (i : ℕ) (st : LoopState) :
    genLoops env cfg req nf ls cfl al bp ma i 0 st = (st, none) := rfl

/-- Every event the loop appends is either inherited from the incoming
trace, a scheduler call carrying exactly the per-request kwargs, or a
decode call. -/
theorem genLoops_trace_mem (env : Env) (cfg : Config) (req : Request)
    (nf ls cfl al : ℕ) (bp : String) (ma : ℕ) :
    ∀ (fuel i : ℕ) (st : LoopState) (e : Event),
      e ∈ (genLoops env cfg req nf ls cfl al bp ma i fuel st).1.trace →
      e ∈ st.trace ∨ e = Event.scheduler_call (scheduler_kwargs cfg req) ∨
        e = Event.decode_call := by
  intro fuel
  induction fuel with
  | zero => intro i st e h; exact Or.inl h
  | succ fuel ih =>
    intro i st e h
    simp only [genLoops] at h
    split at h
    · simp only [List.mem_append, List.mem_singleton] at h
      rcases h with h | h
      · exact Or.inl h
      · exact Or.inr (Or.inl h)
    · split at h
      · simp only [List.mem_append, List.mem_singleton] at h
        rcases h with (h | h) | h
        · exact Or.inl h
        · exact Or.inr (Or.inl h)
        · exact Or.inr (Or.inr h)
      · rcases ih _ _ _ h with h1 | h1
        · simp only [List.mem_append, List.mem_singleton] at h1
          rcases h1 with (h2 | h2) | h2
          · exact Or.inl h2
          · exact Or.inr (Or.inl h2)
          · exact Or.inr (Or.inr h2)
        · exact Or.inr h1

/-- After at least one loop iteration, the shared scheduler holds exactly
the per-request kwargs, whether the iteration succeeded or failed. -/
theorem genLoops_sched_of_pos (env : Env) (cfg : Config) (req : Request)
    (nf ls cfl al : ℕ) (bp : String) (ma : ℕ) :
    ∀ (fuel i : ℕ) (st : LoopState), 0 < fuel →
      (genLoops env cfg req nf ls cfl al bp ma i fuel st).1.sched
        = scheduler_kwargs cfg req := by
  intro fuel
  induction fuel with
  | zero => intro i st h; omega
  | succ fuel ih =>
    intro i st _
    simp only [genLoops]
    split
    · rfl
    · split
      · rfl
      · rcases Nat.eq_zero_or_pos fuel with h0 | hpos
        · subst h0; rfl
        · exact ih _ _ hpos

/-- Variant of the previous lemma phrased on a loop-result equation. -/
theorem genLoops_sched_eq (env : Env) (cfg : Config) (req : Request)
    (nf ls cfl al : ℕ) (bp : String) (ma : ℕ) (fuel i : ℕ)
    (st st' : LoopState) (r : Option RunError)
    (heq : genLoops env cfg req nf ls cfl al bp ma i fuel st = (st', r))
    (hpos : 0 < fuel) : st'.sched = scheduler_kwargs cfg req := by
  have hs := genLoops_sched_of_pos env cfg req nf ls cfl al bp ma fuel i st hpos
  rw [heq] at hs
  exact hs

/-- With no failure, the loop appends exactly one decoded clip per
iteration, and (under the decode length contract) every appended clip has
`nf` frames. -/
theorem genLoops_clips (env : Env) (cfg : Config) (req : Request)
    (nf ls cfl al : ℕ) (bp : String) (ma : ℕ)
    (hdec : ∀ l seg, env.decode l nf = some seg → seg.length = nf) :
    ∀ (fuel i : ℕ) (st st' : LoopState),
      genLoops env cfg req nf ls cfl al bp ma i fuel st = (st', none) →
      st'.clips.length = st.clips.length + fuel ∧
        ∀ c ∈ st'.clips, c ∈ st.clips ∨ c.length = nf := by
  intro fuel
  induction fuel with
  | zero =>
    intro i st st' h
    injection h with h1 h2
    subst h1
    exact ⟨rfl, fun c hc => Or.inl hc⟩
  | succ fuel ih =>
    intro i st st' h
    simp only [genLoops] at h
    split at h
    · injection h with h1 h2; cases h2
    · split at h
      · injection h with h1 h2; cases h2
      · rename_i lat seg hseg
        obtain ⟨hl, hm⟩ := ih _ _ _ h
        constructor
        · simp only [List.length_append, List.length_singleton] at hl
          omega
        · intro c hc
          rcases hm c hc with h1 | h1
          · rcases List.mem_append.1 h1 with h2 | h2
            · exact Or.inl h2
            · right
              rw [List.mem_singleton.1 h2]
              exact hdec _ _ hseg
          · exact Or.inr h1

/-- The loop never reads the incoming scheduler state: with at least one
iteration to run, the whole result is independent of it. -/
theorem genLoops_sched_irrel (env : Env) (cfg : Config) (req : Request)
    (nf ls cfl al : ℕ) (bp : String) (ma : ℕ)
    (fuel i : ℕ) (st : LoopState) (a b : SchedCfg) :
    genLoops env cfg req nf ls cfl al bp ma i (fuel + 1) { st with sched := a }
      = genLoops env cfg req nf ls cfl al bp ma i (fuel + 1) { st with sched := b } := rfl

/-! ### Lemmas about the stitcher -/

theorem mapIdx_drop_of_all (crl : ℕ) :
    ∀ (cs : List (List ℕ)) (g : ℕ → List ℕ → List ℕ),
      (∀ i x, g i x = x.drop crl) →
      cs.mapIdx g = cs.map (fun s => s.drop crl) := by
  intro cs
  induction cs with
  | nil => intro g hg; rfl
  | cons c cs ih =>
    intro g hg
    rw [List.mapIdx_cons, hg, List.map_cons]
    congr 1
    exact ih _ (fun i x => hg (i + 1) x)

/-- The indexed trimming loop keeps the head and drops the leading `crl`
frames of every later clip. -/
theorem trim_video_clips_cons (crl : ℕ) (c : List ℕ) (cs : List (List ℕ)) :
    trim_video_clips crl (c :: cs) = c :: cs.map (fun s => s.drop crl) := by
  unfold trim_video_clips
  rw [List.mapIdx_cons]
  simp only [if_pos rfl]
  congr 1
  exact mapIdx_drop_of_all crl cs _ (fun i x => by simp)

theorem flatten_map_drop_length (crl nf : ℕ) :
    ∀ (cs : List (List ℕ)), (∀ c ∈ cs, c.length = nf) →
      ((cs.map (fun s => s.drop crl)).flatten).length = cs.length * (nf - crl) := by
  intro cs
  induction cs with
  | nil => intro _; simp
  | cons c cs ih =>
    intro h
    simp only [List.map_cons, List.flatten_cons, List.length_append,
      List.length_drop, List.length_cons]
    rw [h c (by simp), ih (fun x hx => h x (by simp [hx]))]
    ring

/-- Stitched length in terms of the per-clip frame count. -/
theorem stitch_length (crl nf : ℕ) (clips : List (List ℕ))
    (h0 : clips ≠ []) (hlen : ∀ c ∈ clips, c.length = nf) :
    (stitch crl clips).length = nf + (clips.length - 1) * (nf - crl) := by
  match clips with
  | c :: cs =>
    unfold stitch
    rw [trim_video_clips_cons]
    simp only [List.flatten_cons, List.length_append, List.length_cons]
    rw [hlen c (by simp), flatten_map_drop_length crl nf cs (fun x hx => hlen x (by simp [hx]))]
    simp

/-- Explicit-fields version of scheduler-state irrelevance, convenient for
rewriting. -/
theorem genLoops_sched_irrel_mk (env : Env) (cfg : Config) (req : Request)
    (nf ls cfl al : ℕ) (bp : String) (ma : ℕ) (i fuel : ℕ) (rng : ℕ)
    (a b : SchedCfg) (refs : ℕ) (ms : Option String)
    (clips : List (List ℕ)) (zs : List ℕ) (trace : List Event) :
    genLoops env cfg req nf ls cfl al bp ma i (fuel + 1)
        ⟨rng, a, refs, ms, clips, zs, trace⟩
      = genLoops env cfg req nf ls cfl al bp ma i (fuel + 1)
        ⟨rng, b, refs, ms, clips, zs, trace⟩ := rfl

/-! ### Lemmas about `run_gen` -/

theorem run_gen_planned (env : Env) (cfg : Config) (req : Request) (p : Plan)
    (is : ℕ × ℕ) (ls cfl al : ℕ) (ms0 : Option String) (r0 : String)
    (rng0 : ℕ) (s0 : SchedCfg) :
    (run_gen env cfg req p is ls cfl al ms0 r0 rng0 s0).planned = some p := by
  simp only [run_gen]
  split <;> rfl

/-- On success, the stitched video length is the closed-form expression in
the plan and the real condition frame length. -/
theorem run_gen_len (env : Env) (cfg : Config) (req : Request) (p : Plan)
    (is : ℕ × ℕ) (ls cfl al : ℕ) (ms0 : Option String) (r0 : String)
    (rng0 : ℕ) (s0 : SchedCfg)
    (hdec : ∀ l seg, env.decode l p.num_frames = some seg → seg.length = p.num_frames)
    (hloop : 0 < p.num_loop) (out : Output)
    (h : (run_gen env cfg req p is ls cfl al ms0 r0 rng0 s0).result = Except.ok out) :
    out.video.length
      = p.num_frames + (p.num_loop - 1) * (p.num_frames - env.dframe_to_frame cfl) := by
  revert h
  simp only [run_gen]
  split
  · intro h; exact Except.noConfusion h
  · rename_i st heq
    intro h
    injection h with h2
    subst h2
    obtain ⟨hl, hm⟩ := genLoops_clips env cfg req p.num_frames ls cfl al _ _ hdec
      p.num_loop 0 _ st heq
    simp only [List.length_nil, Nat.zero_add] at hl
    have hne : st.clips ≠ [] := by
      intro hnil
      rw [hnil] at hl
      simp at hl
      omega
    have hlen : ∀ c ∈ st.clips, c.length = p.num_frames := by
      intro c hc
      rcases hm c hc with h1 | h1
      · exact absurd h1 (List.not_mem_nil c)
      · exact h1
    simp only [stitch_length (env.dframe_to_frame cfl) p.num_frames st.clips hne hlen, hl]

/-- The run succeeds exactly when the cache clear appears in the trace. -/
theorem run_gen_cache (env : Env) (cfg : Config) (req : Request) (p : Plan)
    (is : ℕ × ℕ) (ls cfl al : ℕ) (ms0 : Option String) (r0 : String)
    (rng0 : ℕ) (s0 : SchedCfg) :
    (run_gen env cfg req p is ls cfl al ms0 r0 rng0 s0).result.isOk = true ↔
      Event.empty_cache ∈ (run_gen env cfg req p is ls cfl al ms0 r0 rng0 s0).trace := by
  simp only [run_gen]
  split
  · rename_i st e heq
    constructor
    · intro h; simp [Except.isOk, Except.toBool] at h
    · intro h
      have hmem := genLoops_trace_mem env cfg req p.num_frames ls cfl al _ _
        p.num_loop 0 _ Event.empty_cache (by rw [heq]; exact h)
      rcases hmem with h1 | h1 | h1
      · exact absurd h1 (List.not_mem_nil _)
      · exact Event.noConfusion h1
      · exact Event.noConfusion h1
  · rename_i st heq
    constructor
    · intro _; simp
    · intro _; rfl

/-- Every scheduler call in the trace carries exactly the per-request
kwargs. -/
theorem run_gen_calls (env : Env) (cfg : Config) (req : Request) (p : Plan)
    (is : ℕ × ℕ) (ls cfl al : ℕ) (ms0 : Option String) (r0 : String)
    (rng0 : ℕ) (s0 : SchedCfg) (k : SchedCfg)
    (h : Event.scheduler_call k ∈ (run_gen env cfg req p is ls cfl al ms0 r0 rng0 s0).trace) :
    k = scheduler_kwargs cfg req := by
  revert h
  simp only [run_gen]
  split
  · rename_i st e heq
    intro h
    have hmem := genLoops_trace_mem env cfg req p.num_frames ls cfl al _ _
      p.num_loop 0 _ (Event.scheduler_call k) (by rw [heq]; exact h)
    rcases hmem with h1 | h1 | h1
    · exact absurd h1 (List.not_mem_nil _)
    · injection h1
    · exact Event.noConfusion h1
  · rename_i st heq
    intro h
    rcases List.mem_append.1 h with h1 | h1
    · have hmem := genLoops_trace_mem env cfg req p.num_frames ls cfl al _ _
        p.num_loop 0 _ (Event.scheduler_call k) (by rw [heq]; exact h1)
      rcases hmem with h2 | h2 | h2
      · exact absurd h2 (List.not_mem_nil _)
      · injection h2
      · exact Event.noConfusion h2
    · simp at h1

/-- Once any scheduler call happened, the shared scheduler object is left
holding the per-request kwargs when the run returns or raises. -/
theorem run_gen_sched_mem (env : Env) (cfg : Config) (req : Request) (p : Plan)
    (is : ℕ × ℕ) (ls cfl al : ℕ) (ms0 : Option String) (r0 : String)
    (rng0 : ℕ) (s0 : SchedCfg) (k : SchedCfg)
    (h : Event.scheduler_call k ∈ (run_gen env cfg req p is ls cfl al ms0 r0 rng0 s0).trace) :
    (run_gen env cfg req p is ls cfl al ms0 r0 rng0 s0).sched_final
      = scheduler_kwargs cfg req := by
  revert h
  simp only [run_gen]
  split
  · rename_i st e heq
    intro h
    rcases Nat.eq_zero_or_pos p.num_loop with h0 | hpos
    · rw [h0, genLoops_zero] at heq
      injection heq with h1 h2
      exact Option.noConfusion h2
    · exact genLoops_sched_eq env cfg req p.num_frames ls cfl al _ _ _ _ _ _ _ heq hpos
  · rename_i st heq
    intro h
    rcases List.mem_append.1 h with h1 | h1
    · rcases Nat.eq_zero_or_pos p.num_loop with h0 | hpos
      · rw [h0, genLoops_zero] at heq
        injection heq with h2 h3
        rw [← h2] at h1
        exact absurd h1 (List.not_mem_nil _)
      · exact genLoops_sched_eq env cfg req p.num_frames ls cfl al _ _ _ _ _ _ _ heq hpos
    · simp at h1

/-- The latent noise drawn per loop does not depend on the incoming state
of the shared scheduler object. -/
theorem run_gen_s0_zs (env : Env) (cfg : Config) (req : Request) (p : Plan)
    (is : ℕ × ℕ) (ls cfl al : ℕ) (ms0 : Option String) (r0 : String)
    (rng0 : ℕ) (a b : SchedCfg) :
    (run_gen env cfg req p is ls cfl al ms0 r0 rng0 a).zs
      = (run_gen env cfg req p is ls cfl al ms0 r0 rng0 b).zs := by
  rcases h : p.num_loop with _ | n
  · simp only [run_gen, h, genLoops_zero]
  · simp only [run_gen, h]
    rw [genLoops_sched_irrel_mk env cfg req p.num_frames ls cfl al _ _ 0 n rng0 a b]

/-! ### Lemmas about `run_core` -/

theorem run_core_s0_zs (env : Env) (cfg : Config) (req : Request) (p : Plan)
    (is : ℕ × ℕ) (cfl : ℕ) (rng0 : ℕ) (a b : SchedCfg) :
    (run_core env cfg req p is cfl rng0 a).zs
      = (run_core env cfg req p is cfl rng0 b).zs := by
  simp only [run_core]
  by_cases h1 : (req.mode == "Text2Image") = true
  · simp only [h1, if_true]
    exact run_gen_s0_zs env cfg req p is _ cfl 5 none "" rng0 a b
  · rw [Bool.not_eq_true] at h1
    simp only [h1, Bool.false_eq_true, if_false]
    by_cases h2 : (req.mode == "Text2Video") = true
    · simp only [h2, if_true]
      rcases href : req.reference_image with _ | img
      · simp only [href]
        exact run_gen_s0_zs env cfg req p is _ cfl 5 none "" rng0 a b
      · simp only [href]
        exact run_gen_s0_zs env cfg req p is _ cfl 5 (some "0") _ rng0 a b
    · rw [Bool.not_eq_true] at h2
      simp only [h2, Bool.false_eq_true, if_false]

/-- Case analysis principle for `run_core`: every outcome is produced
either by `run_gen` (for the two recognized modes) or by the invalid-mode
raise. -/
theorem run_core_cases (env : Env) (cfg : Config) (req : Request) (p : Plan)
    (is : ℕ × ℕ) (cfl : ℕ) (rng0 : ℕ) (s0 : SchedCfg) (P : RunOutcome → Prop)
    (hgen : ∀ ls al ms0 r0, req.mode = "Text2Image" ∨ req.mode = "Text2Video" →
      P (run_gen env cfg req p is ls cfl al ms0 r0 rng0 s0))
    (hinv : req.mode ≠ "Text2Image" → req.mode ≠ "Text2Video" →
      P { result := Except.error (RunError.invalidMode req.mode), trace := [],
          sched_final := s0, zs := [], planned := some p }) :
    P (run_core env cfg req p is cfl rng0 s0) := by
  simp only [run_core]
  by_cases h1 : (req.mode == "Text2Image") = true
  · simp only [h1, if_true]
    exact hgen _ _ _ _ (Or.inl (by simpa [beq_iff_eq] using h1))
  · rw [Bool.not_eq_true] at h1
    simp only [h1, Bool.false_eq_true, if_false]
    by_cases h2 : (req.mode == "Text2Video") = true
    · simp only [h2, if_true]
      rcases href : req.reference_image with _ | img
      · simp only [href]
        exact hgen _ _ _ _ (Or.inr (by simpa [beq_iff_eq] using h2))
      · simp only [href]
        exact hgen _ _ _ _ (Or.inr (by simpa [beq_iff_eq] using h2))
    · rw [Bool.not_eq_true] at h2
      simp only [h2, Bool.false_eq_true, if_false]
      exact hinv (by simpa [beq_eq_false_iff_ne] using h1)
        (by simpa [beq_eq_false_iff_ne] using h2)

/-- Case analysis principle for `run_inference`: the image arm plans with a
dummy length, the video arm plans with the parsed seconds, and a parse
failure raises before planning. -/
theorem run_inference_cases (env : Env) (cfg : Config) (req : Request)
    (g0 : ℕ) (s0 : SchedCfg) (P : RunOutcome → Prop)
    (himg : req.mode = "Text2Image" →
      P (run_core env cfg req (plan env cfg req.mode 0)
          (env.get_image_size req.resolution req.aspect_ratio)
          cfg.condition_frame_length (env.seed_state req.seed) s0))
    (hvid : ∀ s, req.mode ≠ "Text2Image" → parse_seconds req.length = some s →
      P (run_core env cfg req (plan env cfg req.mode s)
          (env.get_image_size req.resolution req.aspect_ratio)
          cfg.condition_frame_length (env.seed_state req.seed) s0))
    (hval : req.mode ≠ "Text2Image" → parse_seconds req.length = none →
      P { result := Except.error RunError.valueError, trace := [],
          sched_final := s0, zs := [], planned := none }) :
    P (run_inference env cfg req g0 s0) := by
  simp only [run_inference]
  by_cases h1 : (req.mode == "Text2Image") = true
  · simp only [h1, if_true]
    exact himg (by simpa [beq_iff_eq] using h1)
  · rw [Bool.not_eq_true] at h1
    simp only [h1, Bool.false_eq_true, if_false]
    rcases hps : parse_seconds req.length with _ | s
    · simp only [hps]
      exact hval (by simpa [beq_eq_false_iff_ne] using h1) hps
    · simp only [hps]
      exact hvid s (by simpa [beq_eq_false_iff_ne] using h1) hps

/-! ### Claim theorems -/

/-- C1: for every Text2Video request with requested seconds above 16, the
planner computes `num_loop = 1 + floor((total_num_frames - num_frames) /
(num_frames - condition_real_frame_length))`, where `total_num_frames =
fps * seconds` and `condition_real_frame_length =
dframe_to_frame(condition_frame_length)`.  The two side conditions record
the config-level invariants the spec states: the division denominator is
positive, and a request longer than 16 seconds needs more than one loop of
frames. -/
theorem planner_num_loop_formula (env : Env) (cfg : Config) (seconds : ℕ)
    (h16 : 16 < seconds)
    (hden : env.dframe_to_frame cfg.condition_frame_length < cfg.num_frames)
    (hnum : cfg.num_frames ≤ cfg.fps * seconds) :
    ((plan env cfg "Text2Video" seconds).num_loop : ℤ)
      = 1 + (((cfg.fps * seconds : ℕ) : ℤ) - (cfg.num_frames : ℤ))
          / ((cfg.num_frames : ℤ)
              - ((env.dframe_to_frame cfg.condition_frame_length : ℕ) : ℤ)) := by
  have hbeq : ("Text2Video" == "Text2Image") = false := by decide
  simp only [plan, hbeq, Bool.false_eq_true, if_false]
  rw [if_neg (by omega)]
  generalize hT : cfg.fps * seconds = T at hnum ⊢
  have ha : (0 : ℤ) ≤ (T : ℤ) - (cfg.num_frames : ℤ) := by omega
  have hd : (0 : ℤ) < (cfg.num_frames : ℤ)
      - ((env.dframe_to_frame cfg.condition_frame_length : ℕ) : ℤ) := by omega
  rw [Int.tdiv_eq_ediv ha (le_of_lt hd)]
  have hq := Int.ediv_nonneg ha (le_of_lt hd)
  generalize ((T : ℤ) - (cfg.num_frames : ℤ))
      / ((cfg.num_frames : ℤ)
          - ((env.dframe_to_frame cfg.condition_frame_length : ℕ) : ℤ)) = q at hq ⊢
  show (((q + 1).toNat : ℕ) : ℤ) = 1 + q
  omega

/-- Witness for C1 at the spec example: fps 24, num frames 51, real
condition frame length 17, 32 seconds gives 22 loops. -/
theorem planner_num_loop_formula_example :
    16 < 32 ∧ (plan envOk cfg24 "Text2Video" 32).num_loop = 22 := by
  refine ⟨by omega, ?_⟩
  have h := planner_num_loop_formula envOk cfg24 32 (by omega) (by decide) (by decide)
  have h2 : (1 : ℤ) + (((cfg24.fps * 32 : ℕ) : ℤ) - (cfg24.num_frames : ℤ))
      / ((cfg24.num_frames : ℤ)
          - ((envOk.dframe_to_frame cfg24.condition_frame_length : ℕ) : ℤ)) = 22 := by
    decide
  rw [h2] at h
  exact_mod_cast h

/-- C6: the Segment Stitcher keeps the first decoded segment whole, drops
exactly the leading `dframe_to_frame(condition_frame_length)` frames from
every segment of loop index at least 1, and concatenates the results along
the temporal axis strictly in loop order. -/
theorem stitch_keeps_first_drops_rest (env : Env) (cfg : Config)
    (c : List ℕ) (cs : List (List ℕ)) :
    stitch (env.dframe_to_frame cfg.condition_frame_length) (c :: cs)
      = c ++ (cs.map
          (fun s => s.drop (env.dframe_to_frame cfg.condition_frame_length))).flatten := by
  unfold stitch
  rw [trim_video_clips_cons]
  simp [List.flatten_cons]

/-- C7: two executions of `run_inference` with the same request and seed
draw bit-identical latent noise buffers at every loop index, whatever the
incoming states of the global generator and of the shared scheduler were,
because `torch.manual_seed` reseeds the generator on entry. -/
theorem noise_deterministic_in_seed (env : Env) (cfg : Config) (req : Request)
    (g0 g0' : ℕ) (s0 s0' : SchedCfg) :
    (run_inference env cfg req g0 s0).zs = (run_inference env cfg req g0' s0').zs := by
  simp only [run_inference]
  by_cases h1 : (req.mode == "Text2Image") = true
  · simp only [h1, if_true]
    exact run_core_s0_zs env cfg req _ _ _ _ s0 s0'
  · rw [Bool.not_eq_true] at h1
    simp only [h1, Bool.false_eq_true, if_false]
    rcases hps : parse_seconds req.length with _ | s
    · simp only [hps]
    · simp only [hps]
      exact run_core_s0_zs env cfg req _ _ _ _ s0 s0'

/-- C5: the three known infeasible resolution and length combinations are
refused by `run_video_inference` before execution: the warning fires,
`run_inference` is never entered, no scheduler call or noise draw happens,
the shared scheduler is untouched, and no output is produced. -/
theorem infeasible_combo_refused (env : Env) (cfg : Config) (req : Request)
    (g0 : ℕ) (s0 : SchedCfg)
    (h : (req.resolution = "720p" ∧ (req.length = "8s" ∨ req.length = "16s"))
        ∨ (req.resolution = "480p" ∧ req.length = "16s")) :
    (run_video_inference env cfg req g0 s0).ret = Except.ok none
    ∧ (run_video_inference env cfg req g0 s0).warned = true
    ∧ (run_video_inference env cfg req g0 s0).trace = []
    ∧ (run_video_inference env cfg req g0 s0).zs = []
    ∧ (run_video_inference env cfg req g0 s0).sched_final = s0 := by
  have hg : infeasible_combination req.resolution req.length = true := by
    unfold infeasible_combination
    rcases h with ⟨h1, h2 | h2⟩ | ⟨h1, h2⟩ <;> simp [h1, h2]
  simp [run_video_inference, hg]

/-- Witness for C5 at the 720p and 8s combination. -/
theorem infeasible_combo_refused_witness :
    (run_video_inference envOk cfg24 req720 0 schedDefaults).ret = Except.ok none
    ∧ (run_video_inference envOk cfg24 req720 0 schedDefaults).trace = [] := by
  have h := infeasible_combo_refused envOk cfg24 req720 0 schedDefaults
    (Or.inl ⟨rfl, Or.inl rfl⟩)
  exact ⟨h.1, h.2.2.1⟩

/-- C10: the refused combinations return the Python `None` (no exception,
no saved path), and they are the only inputs for which `run_video_inference`
returns `None`; the refusal is signalled only by the warning flag. -/
theorem refusal_returns_none_iff_infeasible (env : Env) (cfg : Config)
    (req : Request) (g0 : ℕ) (s0 : SchedCfg) :
    ((run_video_inference env cfg req g0 s0).ret = Except.ok none
        ↔ infeasible_combination req.resolution req.length = true)
    ∧ (run_video_inference env cfg req g0 s0).warned
        = infeasible_combination req.resolution req.length := by
  by_cases hg : infeasible_combination req.resolution req.length = true
  · simp [run_video_inference, hg]
  · rw [Bool.not_eq_true] at hg
    simp only [run_video_inference, hg, Bool.false_eq_true, if_false, iff_false]
    refine ⟨?_, trivial⟩
    intro h
    rcases hr : (run_inference env cfg { req with mode := "Text2Video" } g0 s0).result
      with e | out
    · rw [hr] at h
      simp [Except.map] at h
    · rw [hr] at h
      simp [Except.map] at h

/-- The plan recorded in the outcome is the one `run_core` received. -/
theorem run_core_planned (env : Env) (cfg : Config) (req : Request) (p : Plan)
    (is : ℕ × ℕ) (cfl : ℕ) (rng0 : ℕ) (s0 : SchedCfg) :
    (run_core env cfg req p is cfl rng0 s0).planned = some p := by
  refine run_core_cases env cfg req p is cfl rng0 s0 (fun o => o.planned = some p) ?_ ?_
  · intro ls al ms0 r0 _
    exact run_gen_planned env cfg req p is ls cfl al ms0 r0 rng0 s0
  · intro _ _
    rfl

/-- C4 (amended): the device cache clear of line 334 runs exactly on the
normal-completion path — a call returns successfully if and only if the
cache clear executed; on a failure the exception propagates without the
cache clear, and the error carries no partial segment list. -/
theorem empty_cache_iff_success (env : Env) (cfg : Config) (req : Request)
    (g0 : ℕ) (s0 : SchedCfg) :
    (run_inference env cfg req g0 s0).result.isOk = true ↔
      Event.empty_cache ∈ (run_inference env cfg req g0 s0).trace := by
  refine run_inference_cases env cfg req g0 s0
    (fun o => o.result.isOk = true ↔ Event.empty_cache ∈ o.trace) ?_ ?_ ?_
  · intro _
    refine run_core_cases env cfg req _ _ _ _ s0
      (fun o => o.result.isOk = true ↔ Event.empty_cache ∈ o.trace) ?_ ?_
    · intro ls al ms0 r0 _
      exact run_gen_cache env cfg req _ _ ls _ al ms0 r0 _ s0
    · intro _ _
      simp [Except.isOk, Except.toBool]
  · intro s _ _
    refine run_core_cases env cfg req _ _ _ _ s0
      (fun o => o.result.isOk = true ↔ Event.empty_cache ∈ o.trace) ?_ ?_
    · intro ls al ms0 r0 _
      exact run_gen_cache env cfg req _ _ ls _ al ms0 r0 _ s0
    · intro _ _
      simp [Except.isOk, Except.toBool]
  · intro _ _
    simp [Except.isOk, Except.toBool]

/-- C4 counterexample: with a scheduler that fails in the first loop, the
request aborts with the propagated failure and the cache clear of line 334
is never executed, refuting the claim that the clear runs on every path. -/
theorem empty_cache_skipped_on_failure :
    (run_inference envBad cfg24 reqVid4 0 schedDefaults).result
        = Except.error RunError.schedulerFailure
    ∧ Event.empty_cache ∉ (run_inference envBad cfg24 reqVid4 0 schedDefaults).trace := by
  constructor
  · rfl
  · decide

/-- C3 (amended): `run_inference` re-initializes the single shared
scheduler with the kwargs derived from the request before every sample
call, so every scheduler invocation of a run observes exactly that run
overrides, whatever state the shared object was in before; but once any
sample call has happened, the shared scheduler is left holding the request
overrides after the call returns — it is not restored to the configured
defaults. -/
theorem scheduler_override_per_call (env : Env) (cfg : Config) (req : Request)
    (g0 : ℕ) (s0 : SchedCfg) :
    ∀ k, Event.scheduler_call k ∈ (run_inference env cfg req g0 s0).trace →
      k = scheduler_kwargs cfg req
      ∧ (run_inference env cfg req g0 s0).sched_final = scheduler_kwargs cfg req := by
  refine run_inference_cases env cfg req g0 s0
    (fun o => ∀ k, Event.scheduler_call k ∈ o.trace →
      k = scheduler_kwargs cfg req ∧ o.sched_final = scheduler_kwargs cfg req) ?_ ?_ ?_
  · intro _
    refine run_core_cases env cfg req _ _ _ _ s0
      (fun o => ∀ k, Event.scheduler_call k ∈ o.trace →
        k = scheduler_kwargs cfg req ∧ o.sched_final = scheduler_kwargs cfg req) ?_ ?_
    · intro ls al ms0 r0 _ k hk
      exact ⟨run_gen_calls env cfg req _ _ ls _ al ms0 r0 _ s0 k hk,
        run_gen_sched_mem env cfg req _ _ ls _ al ms0 r0 _ s0 k hk⟩
    · intro _ _ k hk
      simp at hk
  · intro s _ _
    refine run_core_cases env cfg req _ _ _ _ s0
      (fun o => ∀ k, Event.scheduler_call k ∈ o.trace →
        k = scheduler_kwargs cfg req ∧ o.sched_final = scheduler_kwargs cfg req) ?_ ?_
    · intro ls al ms0 r0 _ k hk
      exact ⟨run_gen_calls env cfg req _ _ ls _ al ms0 r0 _ s0 k hk,
        run_gen_sched_mem env cfg req _ _ ls _ al ms0 r0 _ s0 k hk⟩
    · intro _ _ k hk
      simp at hk
  · intro _ _ k hk
    simp at hk

/-- Witness for the amended C3: a concrete successful run leaves the shared
scheduler holding the request kwargs. -/
theorem scheduler_override_per_call_witness :
    (run_inference envOk cfg24 reqVid4 0 schedDefaults).sched_final
      = scheduler_kwargs cfg24 reqVid4 :=
  (scheduler_override_per_call envOk cfg24 reqVid4 0 schedDefaults
    (scheduler_kwargs cfg24 reqVid4) (by decide)).2

/-- C3 counterexample: starting from the configured defaults, a successful
call leaves the shared scheduler configuration different from those
defaults, refuting the claim that the overrides are scoped to the call. -/
theorem scheduler_state_persists_counterexample :
    (run_inference envOk cfg24 reqVid4 0 cfg24.scheduler).result.isOk = true
    ∧ (run_inference envOk cfg24 reqVid4 0 cfg24.scheduler).sched_final
        ≠ cfg24.scheduler := by
  constructor
  · rfl
  · decide

/-- C9: a call with an unrecognized mode and a well-formed length tag
aborts with the invalid-mode error before any scheduler invocation, loop
iteration or noise draw, and produces no output. -/
theorem invalid_mode_rejected_early (env : Env) (cfg : Config) (req : Request)
    (g0 : ℕ) (s0 : SchedCfg)
    (h1 : req.mode ≠ "Text2Image") (h2 : req.mode ≠ "Text2Video")
    (h3 : (parse_seconds req.length).isSome = true) :
    (run_inference env cfg req g0 s0).result
        = Except.error (RunError.invalidMode req.mode)
    ∧ (run_inference env cfg req g0 s0).trace = []
    ∧ (run_inference env cfg req g0 s0).zs = [] := by
  refine run_inference_cases env cfg req g0 s0
    (fun o => o.result = Except.error (RunError.invalidMode req.mode)
      ∧ o.trace = [] ∧ o.zs = []) ?_ ?_ ?_
  · intro hmode
    exact absurd hmode h1
  · intro s _ _
    refine run_core_cases env cfg req _ _ _ _ s0
      (fun o => o.result = Except.error (RunError.invalidMode req.mode)
        ∧ o.trace = [] ∧ o.zs = []) ?_ ?_
    · intro ls al ms0 r0 hor
      rcases hor with h | h
      · exact absurd h h1
      · exact absurd h h2
    · intro _ _
      exact ⟨rfl, rfl, rfl⟩
  · intro _ hnone
    rw [hnone] at h3
    exact Bool.noConfusion h3

/-- Witness for C9 at the mode value `Foo`. -/
theorem invalid_mode_rejected_early_witness :
    (run_inference envOk cfg24 reqFoo 0 schedDefaults).result
      = Except.error (RunError.invalidMode "Foo") :=
  (invalid_mode_rejected_early envOk cfg24 reqFoo 0 schedDefaults
    (by decide) (by decide) (by decide)).1

/-- C8: the planner gives every Text2Image request one loop of a single
frame, for every resolution and aspect ratio, and gives every Text2Video
request of at most 16 seconds a single loop with the frame count resolved
by the length-tag lookup. -/
theorem planner_image_and_short_video (env : Env) (cfg : Config) (req : Request)
    (g0 : ℕ) (s0 : SchedCfg) :
    (req.mode = "Text2Image" →
      (run_inference env cfg req g0 s0).planned
        = some { num_frames := 1, num_loop := 1, fps := env.img_fps })
    ∧ (∀ s, req.mode = "Text2Video" → parse_seconds req.length = some s → s ≤ 16 →
      (run_inference env cfg req g0 s0).planned
        = some { num_frames := get_num_frames cfg s, num_loop := 1, fps := cfg.fps }) := by
  refine run_inference_cases env cfg req g0 s0
    (fun o => (req.mode = "Text2Image" →
        o.planned = some { num_frames := 1, num_loop := 1, fps := env.img_fps })
      ∧ (∀ s, req.mode = "Text2Video" → parse_seconds req.length = some s → s ≤ 16 →
        o.planned
          = some { num_frames := get_num_frames cfg s, num_loop := 1, fps := cfg.fps })) ?_ ?_ ?_
  · intro hmode
    constructor
    · intro _
      rw [run_core_planned, hmode]
      simp [plan]
    · intro s hmode2 _ _
      rw [hmode] at hmode2
      exact absurd hmode2 (by decide)
  · intro s hne hparse
    constructor
    · intro hmode
      exact absurd hmode hne
    · intro s' hmode hparse' h16
      rw [hparse] at hparse'
      have hs : s' = s := (Option.some.inj hparse').symm
      subst hs
      rw [run_core_planned, hmode]
      simp [plan, h16]
  · intro hne hnone
    constructor
    · intro hmode
      exact absurd hmode hne
    · intro s _ hparse _
      rw [hnone] at hparse
      exact Option.noConfusion hparse

/-- Witness for C8 at a Text2Image request and a 4 second Text2Video
request. -/
theorem planner_image_and_short_video_witness :
    (run_inference envOk cfg24 reqImg 0 schedDefaults).planned
        = some { num_frames := 1, num_loop := 1, fps := envOk.img_fps }
    ∧ (run_inference envOk cfg24 reqVid4 0 schedDefaults).planned
        = some { num_frames := get_num_frames cfg24 4, num_loop := 1, fps := cfg24.fps } :=
  ⟨(planner_image_and_short_video envOk cfg24 reqImg 0 schedDefaults).1 rfl,
    (planner_image_and_short_video envOk cfg24 reqVid4 0 schedDefaults).2 4 rfl
      (by decide) (by omega)⟩

/-- Length of a successful `run_core` output, lifted from `run_gen`. -/
theorem run_core_len (env : Env) (cfg : Config) (req : Request) (p : Plan)
    (is : ℕ × ℕ) (cfl : ℕ) (rng0 : ℕ) (s0 : SchedCfg)
    (hdec : ∀ l seg, env.decode l p.num_frames = some seg → seg.length = p.num_frames)
    (hloop : 0 < p.num_loop) (out : Output)
    (hok : (run_core env cfg req p is cfl rng0 s0).result = Except.ok out) :
    out.video.length
      = p.num_frames + (p.num_loop - 1) * (p.num_frames - env.dframe_to_frame cfl) := by
  revert hok
  refine run_core_cases env cfg req p is cfl rng0 s0
    (fun o => o.result = Except.ok out →
      out.video.length
        = p.num_frames + (p.num_loop - 1) * (p.num_frames - env.dframe_to_frame cfl)) ?_ ?_
  · intro ls al ms0 r0 _ hok
    exact run_gen_len env cfg req p is ls cfl al ms0 r0 rng0 s0 hdec hloop out hok
  · intro _ _ hok
    exact Except.noConfusion hok

/-- The closed-form stitched length of a long video plan never exceeds the
requested total frame count. -/
theorem plan_video_clamp (env : Env) (cfg : Config) (s : ℕ)
    (hden : env.dframe_to_frame cfg.condition_frame_length < cfg.num_frames)
    (hnum : cfg.num_frames ≤ cfg.fps * s) :
    (plan env cfg "Text2Video" s).num_frames
      + ((plan env cfg "Text2Video" s).num_loop - 1)
        * ((plan env cfg "Text2Video" s).num_frames
            - env.dframe_to_frame cfg.condition_frame_length)
      ≤ cfg.fps * s := by
  have hbeq : ("Text2Video" == "Text2Image") = false := by decide
  simp only [plan, hbeq, Bool.false_eq_true, if_false]
  by_cases h16 : s ≤ 16
  · rw [if_pos h16]
    dsimp only
    simp [get_num_frames]
  · rw [if_neg h16]
    dsimp only
    set D := env.dframe_to_frame cfg.condition_frame_length with hD
    generalize hT : cfg.fps * s = T at hnum ⊢
    have ha : (0 : ℤ) ≤ (T : ℤ) - (cfg.num_frames : ℤ) := by omega
    have hd : (0 : ℤ) < (cfg.num_frames : ℤ) - (D : ℤ) := by omega
    rw [Int.tdiv_eq_ediv ha (le_of_lt hd)]
    have hq := Int.ediv_nonneg ha (le_of_lt hd)
    have hmul := Int.ediv_mul_le ((T : ℤ) - (cfg.num_frames : ℤ))
      (b := (cfg.num_frames : ℤ) - (D : ℤ)) (by omega)
    generalize hQ : ((T : ℤ) - (cfg.num_frames : ℤ))
        / ((cfg.num_frames : ℤ) - (D : ℤ)) = q at hq hmul ⊢
    have hq' : ((q + 1).toNat - 1 : ℕ) = q.toNat := by omega
    rw [hq']
    have h1 : ((q.toNat * (cfg.num_frames - D) : ℕ) : ℤ) = q * ((cfg.num_frames : ℤ) - (D : ℤ)) := by
      rw [Nat.cast_mul, Int.toNat_of_nonneg hq, Nat.cast_sub (le_of_lt hden)]
    have h2 : ((cfg.num_frames + q.toNat * (cfg.num_frames - D) : ℕ) : ℤ) ≤ (T : ℤ) := by
      rw [Nat.cast_add, h1]
      linarith
    exact_mod_cast h2

/-- C2: for every request that completes, the stitched video has exactly
`num_frames + (num_loop - 1) * (num_frames - condition_real_frame_length)`
frames (the decode collaborator yields `num_frames` frames per clip), and
for a video request this count never exceeds the requested total
`fps * seconds` — the clamping the spec describes is inherent in the
planner arithmetic, under the config invariants that the loop denominator
is positive and that a request covers at least one loop of frames. -/
theorem stitched_length_eq_and_clamped (env : Env) (cfg : Config) (req : Request)
    (g0 : ℕ) (s0 : SchedCfg) (p : Plan) (out : Output)
    (hdec : ∀ n l seg, env.decode l n = some seg → seg.length = n)
    (hok : (run_inference env cfg req g0 s0).result = Except.ok out)
    (hp : (run_inference env cfg req g0 s0).planned = some p)
    (hloop : 0 < p.num_loop) :
    out.video.length
      = p.num_frames + (p.num_loop - 1)
          * (p.num_frames - env.dframe_to_frame cfg.condition_frame_length)
    ∧ (∀ s, req.mode = "Text2Video" → parse_seconds req.length = some s →
        env.dframe_to_frame cfg.condition_frame_length < cfg.num_frames →
        cfg.num_frames ≤ cfg.fps * s →
        out.video.length ≤ cfg.fps * s) := by
  revert hok hp hloop
  refine run_inference_cases env cfg req g0 s0
    (fun o => o.result = Except.ok out → o.planned = some p → 0 < p.num_loop →
      out.video.length
        = p.num_frames + (p.num_loop - 1)
            * (p.num_frames - env.dframe_to_frame cfg.condition_frame_length)
      ∧ (∀ s, req.mode = "Text2Video" → parse_seconds req.length = some s →
          env.dframe_to_frame cfg.condition_frame_length < cfg.num_frames →
          cfg.num_frames ≤ cfg.fps * s →
          out.video.length ≤ cfg.fps * s)) ?_ ?_ ?_
  · intro hmode hok hp hloop
    rw [run_core_planned] at hp
    have hpp : plan env cfg req.mode 0 = p := Option.some.inj hp
    subst hpp
    have hfm := run_core_len env cfg req _ _ _ _ s0 (fun l seg => hdec _ l seg) hloop out hok
    refine ⟨hfm, ?_⟩
    intro s hmode2 _ _ _
    rw [hmode] at hmode2
    exact absurd hmode2 (by decide)
  · intro s hne hparse hok hp hloop
    rw [run_core_planned] at hp
    have hpp : plan env cfg req.mode s = p := Option.some.inj hp
    subst hpp
    have hfm := run_core_len env cfg req _ _ _ _ s0 (fun l seg => hdec _ l seg) hloop out hok
    refine ⟨hfm, ?_⟩
    intro s' hmode hparse' hden hnum
    rw [hparse] at hparse'
    have hs : s' = s := (Option.some.inj hparse').symm
    subst hs
    rw [hfm, hmode]
    exact plan_video_clamp env cfg s' hden hnum
  · intro hne hnone hok
    exact Except.noConfusion hok

/-- Witness for C2: the 17 second example run stitches 11 clips of 51
frames into a 391 frame video, within the requested 408 frames. -/
theorem stitched_length_witness :
    c2Out.video.length = 391 ∧ c2Out.video.length ≤ 24 * 17 := by
  have h := stitched_length_eq_and_clamped envOk cfg24 reqVid17 0 schedDefaults
    (plan envOk cfg24 "Text2Video" 17) c2Out
    (fun n l seg hs => by
      have h2 := Option.some.inj hs
      rw [← h2, List.length_replicate])
    (by rfl) (by rfl) (by decide)
  refine ⟨?_, ?_⟩
  · rw [h.1]
    decide
  · exact h.2 17 rfl (by decide) (by decide) (by decide)
